import Mathlib

/-!
Shallow embedding of `neon/data/questionanswer.py`: the bAbI question-answering
data pipeline (class `BABI`) and the minibatch iterator (class `QA`).

Python strings are modelled as `String` / `List Char`; the fallible Python
operations (`ValueError`, `TypeError`, `KeyError`, unpacking failures) are
modelled with `Option`, where `none` is an uncaught exception.
-/

namespace PyStr

/-- The characters Python 2 `str.strip()` removes: space, tab, newline,
vertical tab, form feed, carriage return. -/
def isSpace (c : Char) : Bool :=
  c = ' ' || c = '\t' || c = '\n' || c = '\x0b' || c = '\x0c' || c = '\r'

/-- Python `s.strip()`: drop leading and trailing whitespace. -/
def strip (cs : List Char) : List Char :=
  ((cs.dropWhile isSpace).reverse.dropWhile isSpace).reverse

/-- Python `s.split(sep)` for a one-character separator: all segments between
occurrences of `sep`, empty segments included; never returns `[]`
(Python `"".split(sep) == [""]`). -/
def splitOn (sep : Char) : List Char → List (List Char)
  | [] => [[]]
  | c :: cs =>
    if c = sep then [] :: splitOn sep cs
    else
      match splitOn sep cs with
      | [] => [[c]]
      | r :: rs => (c :: r) :: rs

/-- Python `s.split(sep, 1)` followed by unpacking into two variables:
`none` when `sep` does not occur (Python raises `ValueError` on unpacking
a one-element list into two names). -/
def splitFirst (sep : Char) : List Char → Option (List Char × List Char)
  | [] => none
  | c :: cs =>
    if c = sep then some ([], cs)
    else (splitFirst sep cs).map (fun p => (c :: p.1, p.2))

/-- Left-to-right decimal digit accumulation; `none` if empty or a
non-digit occurs. -/
def digitsToNat (cs : List Char) : Option Nat :=
  if cs = [] then none
  else
    cs.foldl
      (fun acc c =>
        match acc with
        | none => none
        | some n => if c.isDigit then some (n * 10 + (c.toNat - '0'.toNat)) else none)
      (some 0)

/-- Python `int(s)`: optional surrounding whitespace, optional sign, decimal
digits; `none` models the `ValueError` on anything else. -/
def pyInt (cs : List Char) : Option Int :=
  match strip cs with
  | '-' :: ds => (digitsToNat ds).map (fun n => -(n : Int))
  | '+' :: ds => (digitsToNat ds).map (fun n => (n : Int))
  | ds => (digitsToNat ds).map (fun n => (n : Int))

/-- Lexicographic comparison of character lists by code point: the Python 2
`str` comparison, as used by `sorted`. -/
def charsLe : List Char → List Char → Bool
  | [], _ => true
  | _ :: _, [] => false
  | a :: as, b :: bs =>
    if a < b then true
    else if b < a then false
    else charsLe as bs

/-- Python `a <= b` on strings. -/
def le (a b : String) : Bool := charsLe a.data b.data

/-- Python 2 `\w` under the default (ASCII) locale: `[a-zA-Z0-9_]`. -/
def wordChar (c : Char) : Bool := c.isAlphanum || c = '_'

/-- Maximal runs of characters of equal `\w`-class, accumulator form:
`cls` is the class of the run collected (reversed) in `acc`. -/
def runsAux (cls : Bool) (acc : List Char) : List Char → List (List Char)
  | [] => [acc.reverse]
  | c :: cs =>
    if wordChar c = cls then runsAux cls (c :: acc) cs
    else acc.reverse :: runsAux (wordChar c) [c] cs

/-- Split a string into maximal runs of word characters and maximal runs of
non-word characters, in order: the non-empty pieces of Python 2
`re.split` with pattern `(\W+)?` (the word runs interleaved with the captured
separator runs). -/
def runs : List Char → List (List Char)
  | [] => []
  | c :: cs => runsAux (wordChar c) [c] cs

end PyStr

/-- A parsed bAbI example: (story tokens, query tokens, answer word). -/
abbrev Example := List String × List String × String

namespace BABI

/-- `BABI.data_to_list`: `data.split` on the newline character, then `[:-1]`,
each line decoded as utf-8 and stripped (decoding is the identity on the model).
Note `[:-1]` drops the last segment of the split unconditionally. -/
def data_to_list (data : String) : List String :=
  ((PyStr.splitOn '\n' data.data).dropLast).map (fun cs => String.mk (PyStr.strip cs))

/-- `BABI.tokenize`: each piece of `re.split` with pattern `(\W+)?` is
stripped, and the non-empty results are kept. -/
def tokenize (sentence : String) : List String :=
  ((PyStr.runs sentence.data).map (fun r => String.mk (PyStr.strip r))).filter
    (fun t => t ≠ "")

/-- `BABI.flatten`: `reduce(lambda x, y: x + y, data)`.  `reduce` without an
initial value raises `TypeError` on an empty sequence, hence `none` on `[]`;
otherwise it folds `+` (list concatenation) from the first element. -/
def flatten (data : List (List String)) : Option (List String) :=
  match data with
  | [] => none
  | x :: xs => some (xs.foldl (fun a b => a ++ b) x)

/-- A not-yet-flattened example accumulated by the parse loop:
(story sentence list, query tokens, answer word). -/
abbrev RawExample := List (List String) × List String × String

/-- One iteration of the `for line in lines` loop of `BABI.parse_babi`,
acting on the accumulators `(data, story)`.  The empty-string placeholder
that `story.append` adds after a question (falsy like an empty token list)
is modelled as `[]`, which the `[x for x in story if x]` filter removes identically. -/
def parse_step (acc : List RawExample × List (List String)) (line : String) :
    Option (List RawExample × List (List String)) :=
  match PyStr.splitFirst ' ' line.data with
  | none => none
  | some (nid, rest) =>
    match PyStr.pyInt nid with
    | none => none
    | some n =>
      let story := if n = 1 then [] else acc.2
      if '\t' ∈ rest then
        match PyStr.splitOn '\t' rest with
        | [q, a, _supporting] =>
          let substory := story.filter (fun x => x ≠ [])
          some (acc.1 ++ [(substory, tokenize (String.mk q), String.mk a)],
                story ++ [[]])
        | _ => none
      else
        some (acc.1, story ++ [tokenize (String.mk rest)])

/-- The whole `for line in lines` loop of `BABI.parse_babi`. -/
def parse_lines (acc : List RawExample × List (List String)) :
    List String → Option (List RawExample)
  | [] => some acc.1
  | l :: ls =>
    match parse_step acc l with
    | none => none
    | some acc2 => parse_lines acc2 ls

/-- The final comprehension of `BABI.parse_babi`:
`[(BABI.flatten(story), q, answer) for story, q, answer in data]`,
where a `flatten` failure aborts the whole call. -/
def finalize : List RawExample → Option (List Example)
  | [] => some []
  | (st, q, a) :: rest =>
    match flatten st with
    | none => none
    | some s => (finalize rest).map (fun r => (s, q, a) :: r)

/-- `BABI.parse_babi`. -/
def parse_babi (babi_data : String) : Option (List Example) :=
  (parse_lines ([], []) (data_to_list babi_data)).bind finalize

end BABI

namespace BABI

/-- All tokens of `all_data = train_parsed + test_parsed`: the elements of the
per-example sets `set(s + q + [a])` of `compute_statistics`. -/
def all_tokens (all_data : List Example) : List String :=
  all_data.flatMap (fun e => e.1 ++ e.2.1 ++ [e.2.2])

/-- `vocab = sorted(reduce(lambda x, y: x | y, (set(s + q + [a]) for ...)))`:
the distinct tokens of `all_data`, sorted in increasing string order
(Python compares `str` lexicographically by code point, `PyStr.le`).
(The surrounding emptiness failure of `reduce` is handled in
`compute_statistics`.) -/
def vocab (all_data : List Example) : List String :=
  List.insertionSort (fun a b => PyStr.le a b = true) (all_tokens all_data).dedup

/-- `self.vocab_size = len(vocab) + 1` (0 reserved for padding). -/
def vocab_size (all_data : List Example) : Nat :=
  (vocab all_data).length + 1

/-- `self.word_idx = dict((c, i + 1) for i, c in enumerate(vocab))`, as a
lookup: `vocab` has no duplicates, so the value stored under a key `c`
is its position in `vocab` plus 1; a missing key is a `KeyError` (`none`). -/
def word_idx (all_data : List Example) (w : String) : Option Nat :=
  if w ∈ vocab all_data then some ((vocab all_data).indexOf w + 1) else none

/-- `self.story_maxlen = max(map(len, (s for s, _, _ in all_data)))`
(the `max` of an empty sequence raises; `compute_statistics` guards). -/
def story_maxlen (all_data : List Example) : Nat :=
  (all_data.map (fun e => e.1.length)).foldl max 0

/-- `self.query_maxlen = max(map(len, (q for _, q, _ in all_data)))`. -/
def query_maxlen (all_data : List Example) : Nat :=
  (all_data.map (fun e => e.2.1.length)).foldl max 0

/-- The fields `compute_statistics` sets on `self`. -/
structure Statistics where
  vocabSize : Nat
  wordIdx : String → Option Nat
  storyMaxlen : Nat
  queryMaxlen : Nat

/-- `BABI.compute_statistics` over `all_data = self.train_parsed +
self.test_parsed`.  On empty data the `reduce(lambda x, y: x | y, ...)` has
no initial value and raises `TypeError` (and `max` of an empty sequence would
raise `ValueError`), hence `none`. -/
def compute_statistics (all_data : List Example) : Option Statistics :=
  if all_data = [] then none
  else
    some
      { vocabSize := vocab_size all_data
        wordIdx := word_idx all_data
        storyMaxlen := story_maxlen all_data
        queryMaxlen := query_maxlen all_data }

/-- `BABI.words_to_vector`: `[self.word_idx[w] for w in words]`; the first
missing key raises `KeyError` (`none`). -/
def words_to_vector (all_data : List Example) : List String → Option (List Nat)
  | [] => some []
  | w :: ws =>
    match word_idx all_data w with
    | none => none
    | some i => (words_to_vector all_data ws).map (fun v => i :: v)

/-- `BABI.one_hot_vector`: `vector = np.zeros(self.vocab_size);
vector[self.word_idx[answer]] = 1`; a missing answer raises `KeyError`.
The written index is always in range (position in `vocab` plus 1, and
`vocab_size = len(vocab) + 1`). -/
def one_hot_vector (all_data : List Example) (answer : String) : Option (List Nat) :=
  (word_idx all_data answer).map
    (fun i => (List.replicate (vocab_size all_data) 0).set i 1)

end BABI

/-- The `QA` iterator container.  The three arrays are modelled by their
lists of example rows (one `α` per example row); `bsz` is the backend batch
size `self.be.bsz`, and `batch_index` the iterator cursor set by `__iter__`.
The transpose, the cast to 32-bit float and the wrapping as backend tensors
performed on each yielded slice are bijective re-layouts delegated to the
array backend and are not part of the claims about which rows are yielded. -/
structure QA (α : Type) where
  story : List α
  query : List α
  answer : List α
  bsz : Nat
  batch_index : Nat

namespace QA

variable {α : Type}

/-- `self.ndata = len(self.story)`. -/
def ndata (qa : QA α) : Nat := qa.story.length

/-- `self.nbatches = self.ndata / self.be.bsz`: Python 2 integer division,
which truncates (floor on non-negative operands). -/
def nbatches (qa : QA α) : Nat := qa.ndata / qa.bsz

/-- The slices taken on iteration step `i`:
`start = i * bsz`, `end = (i + 1) * bsz`, and a Python slice `[start:end]`
is `drop start` then `take (end - start)`. -/
def batchAt (qa : QA α) (i : Nat) : List α × List α × List α :=
  ((qa.story.drop (i * qa.bsz)).take qa.bsz,
   (qa.query.drop (i * qa.bsz)).take qa.bsz,
   (qa.answer.drop (i * qa.bsz)).take qa.bsz)

/-- The `while self.batch_index < self.nbatches` loop of `QA.__iter__`,
collecting the yielded batches and returning the final cursor.  `fuel`
bounds the iteration count for structural recursion; `iter` passes
`nbatches`, which the loop (starting at cursor 0 and incrementing by 1)
never exhausts. -/
def iterAux (qa : QA α) : Nat → Nat → List (List α × List α × List α) × Nat
  | 0, idx => ([], idx)
  | fuel + 1, idx =>
    if idx < qa.nbatches then
      let r := iterAux qa fuel (idx + 1)
      (qa.batchAt idx :: r.1, r.2)
    else ([], idx)

/-- `QA.__iter__`: sets `self.batch_index = 0`, then runs the yield loop;
returns the yielded batches and the object state after exhaustion. -/
def iter (qa : QA α) : List (List α × List α × List α) × QA α :=
  let r := iterAux qa qa.nbatches 0
  (r.1, { qa with batch_index := r.2 })

/-- `QA.reset`: `pass` — leaves the object unchanged. -/
def reset (qa : QA α) : QA α := qa

end QA

namespace PyStr

lemma charsLe_iff (as bs : List Char) :
    charsLe as bs = true ↔ ¬ List.Lex (fun a b : Char => a < b) bs as := by
  induction as generalizing bs with
  | nil =>
    cases bs with
    | nil =>
      simp only [charsLe, true_iff]
      exact List.Lex.not_nil_right _ _
    | cons b bs =>
      simp only [charsLe, true_iff]
      exact List.Lex.not_nil_right _ _
  | cons a as ih =>
    cases bs with
    | nil =>
      simp only [charsLe, Bool.false_eq_true, false_iff, not_not]
      exact List.Lex.nil
    | cons b bs =>
      rcases lt_trichotomy a b with h | h | h
      · simp only [charsLe, if_pos h, true_iff]
        intro hlex
        cases hlex with
        | cons h2 => exact lt_irrefl _ h
        | rel h2 => exact absurd h (asymm h2)
      · subst h
        simp only [charsLe, if_neg (lt_irrefl a)]
        rw [not_congr List.Lex.cons_iff]
        exact ih bs
      · simp only [charsLe, if_neg (asymm h), if_pos h, Bool.false_eq_true, false_iff, not_not]
        exact List.Lex.rel h

lemma le_iff (a b : String) : le a b = true ↔ a ≤ b := by
  simp only [le]
  rw [charsLe_iff]
  show ¬ b.toList < a.toList ↔ a ≤ b
  rw [← String.lt_iff_toList_lt]
  exact not_lt

end PyStr

instance : IsTotal String (fun a b => PyStr.le a b = true) :=
  ⟨fun a b => by
    rcases le_total a b with h | h
    · exact Or.inl ((PyStr.le_iff a b).mpr h)
    · exact Or.inr ((PyStr.le_iff b a).mpr h)⟩

instance : IsTrans String (fun a b => PyStr.le a b = true) :=
  ⟨fun a b c hab hbc =>
    (PyStr.le_iff a c).mpr
      (le_trans ((PyStr.le_iff a b).mp hab) ((PyStr.le_iff b c).mp hbc))⟩

namespace BABI

lemma vocab_perm (d : List Example) : List.Perm (vocab d) (all_tokens d).dedup :=
  List.perm_insertionSort _ _

lemma mem_vocab {d : List Example} {w : String} :
    w ∈ vocab d ↔ w ∈ all_tokens d := by
  rw [(vocab_perm d).mem_iff, List.mem_dedup]

lemma nodup_vocab (d : List Example) : (vocab d).Nodup :=
  (vocab_perm d).symm.nodup ((all_tokens d).nodup_dedup)

lemma length_vocab (d : List Example) :
    (vocab d).length = (all_tokens d).dedup.length :=
  (vocab_perm d).length_eq

end BABI

/-- C4 (counterexample): on the exact input of the claim — which has no
trailing newline — `parse_babi` produces zero examples, not one: the
`[:-1]` of `data_to_list` discards the question line, so no
example is ever recorded. -/
theorem parse_babi_scenario_counterexample :
    BABI.parse_babi "1 Mary moved to the bathroom.\n2 Where is Mary?\tbathroom\t1" =
      some [] ∧
    BABI.data_to_list "1 Mary moved to the bathroom.\n2 Where is Mary?\tbathroom\t1" =
      ["1 Mary moved to the bathroom."] := by
  constructor <;> decide

/-- C4 (amended): with the input terminated by a newline — as bAbI data files
are — `parse_babi` produces exactly one example: the tokenized first
sentence as the story, `["Where", "is", "Mary", "?"]` as the query, and
`"bathroom"` as the answer. -/
theorem parse_babi_scenario_amended :
    BABI.parse_babi "1 Mary moved to the bathroom.\n2 Where is Mary?\tbathroom\t1\n" =
      some [(BABI.tokenize "Mary moved to the bathroom.",
             ["Where", "is", "Mary", "?"], "bathroom")] := by
  decide

/-- C10: there is well-formed bAbI input on which `parse_babi` raises: when a
question line opens a story context, the filtered story is empty, and
`flatten` — `reduce` without an initial value — raises `TypeError` instead of
producing an example with an empty story. -/
theorem parse_babi_empty_story_raises :
    BABI.parse_babi "1 Where is Mary?\tbathroom\t1\n" = none ∧
    BABI.flatten [] = none := by
  constructor <;> decide

/-- Input constructor for reasoning about `data_to_list`: the concatenation
of the given lines, each terminated by a newline. -/
def joinLines (ls : List String) : String :=
  String.mk ((ls.map (fun l => l.data ++ ['\n'])).flatten)

namespace PyStr

lemma splitOn_ne_nil (sep : Char) (cs : List Char) : splitOn sep cs ≠ [] := by
  cases cs with
  | nil => simp [splitOn]
  | cons c cs =>
    simp only [splitOn]
    split
    · simp
    · split <;> simp

lemma splitOn_line {l : List Char} (rest : List Char) (h : '\n' ∉ l) :
    splitOn '\n' (l ++ '\n' :: rest) = l :: splitOn '\n' rest := by
  induction l with
  | nil => simp [splitOn]
  | cons c l ih =>
    have hc : ¬(c = '\n') := fun e => h (e ▸ List.mem_cons_self c l)
    have hl : '\n' ∉ l := fun m => h (List.mem_cons_of_mem _ m)
    rw [List.cons_append]
    simp only [splitOn, if_neg hc, ih hl]

end PyStr

/-- C7 (counterexample): on the input `"a"` — one non-empty line, no trailing
newline — the split produces the single segment `"a"`, yet `data_to_list`
returns the empty list: `[:-1]` discards the last segment unconditionally,
so the non-empty final line is lost. -/
theorem data_to_list_drops_last_counterexample :
    BABI.data_to_list "a" = [] ∧ PyStr.splitOn '\n' ("a".data) = [['a']] := by
  constructor <;> decide

/-- C7 (amended): `data_to_list` splits on newlines and drops the last
segment of the split.  When the input consists of newline-terminated lines —
so that the dropped segment is the empty one after the final newline — every
line, non-empty or not, appears stripped in the result and none is lost;
when the input does not end with a newline, its last line is discarded. -/
theorem data_to_list_newline_terminated (ls : List String)
    (h : ∀ l ∈ ls, '\n' ∉ l.data) :
    BABI.data_to_list (joinLines ls) = ls.map (fun l => String.mk (PyStr.strip l.data)) := by
  induction ls with
  | nil => decide
  | cons l ls ih =>
    have hl : '\n' ∉ l.data := h l (List.mem_cons_self l ls)
    have hls : ∀ x ∈ ls, '\n' ∉ x.data := fun x hx => h x (List.mem_cons_of_mem _ hx)
    show ((PyStr.splitOn '\n' (joinLines (l :: ls)).data).dropLast).map _ = _
    have hdata : (joinLines (l :: ls)).data = l.data ++ '\n' :: (joinLines ls).data := by
      simp [joinLines]
    rw [hdata, PyStr.splitOn_line _ hl,
      List.dropLast_cons_of_ne_nil (PyStr.splitOn_ne_nil '\n' (joinLines ls).data),
      List.map_cons, List.map_cons]
    exact congrArg _ (ih hls)

/-- C7 witness. -/
theorem data_to_list_newline_terminated_witness :
    BABI.data_to_list (joinLines ["1 a b.", " 2 c? "]) =
      ["1 a b.", " 2 c? "].map (fun l => String.mk (PyStr.strip l.data)) :=
  data_to_list_newline_terminated ["1 a b.", " 2 c? "] (by decide)

namespace BABI

lemma foldl_append_eq (xs : List (List String)) (x : List String) :
    xs.foldl (fun a b => a ++ b) x = x ++ xs.flatten := by
  induction xs generalizing x with
  | nil => simp
  | cons y ys ih => simp [ih, List.append_assoc]

end BABI

/-- C8: on every non-empty list of sentences (token lists), `flatten`
returns their concatenation in order, whose length is the sum of the
per-sentence token counts. -/
theorem flatten_concat (data : List (List String)) (h : data ≠ []) :
    ∃ r, BABI.flatten data = some r ∧ r = data.flatten ∧
      r.length = (data.map List.length).sum := by
  match data with
  | [] => exact absurd rfl h
  | x :: xs =>
    refine ⟨x ++ xs.flatten, ?_, by simp, by simp⟩
    simp [BABI.flatten, BABI.foldl_append_eq]

/-- C8 witness. -/
theorem flatten_concat_witness :
    ∃ r, BABI.flatten [["Mary", "ran", "."], ["John", "slept", "."]] = some r ∧
      r = [["Mary", "ran", "."], ["John", "slept", "."]].flatten ∧
      r.length = ([["Mary", "ran", "."], ["John", "slept", "."]].map List.length).sum :=
  flatten_concat _ (by decide)

/-- C1 (counterexample): both splits can parse to zero examples (the empty
file parses to `[]`), and on empty combined data `compute_statistics` does
not set any statistics: the `reduce(lambda x, y: x | y, ...)` has no initial
value and raises `TypeError`. -/
theorem compute_statistics_empty_counterexample :
    BABI.parse_babi "" = some [] ∧
    BABI.compute_statistics ([] ++ []) = none := by
  exact ⟨by decide, rfl⟩

/-- C1 (amended): for every pair of parsed train and test splits with at
least one example between them, `compute_statistics` sets `vocab_size` to
the number of distinct tokens occurring in any story, query, or answer
across both splits plus 1, and `word_idx` gives every such token a unique
index, never 0. -/
theorem compute_statistics_vocab_indexing (train test : List Example)
    (h : train ++ test ≠ []) :
    ∃ st, BABI.compute_statistics (train ++ test) = some st ∧
      st.vocabSize = (BABI.all_tokens (train ++ test)).dedup.length + 1 ∧
      (∀ w ∈ BABI.all_tokens (train ++ test), ∃ i, st.wordIdx w = some i ∧ i ≠ 0) ∧
      (∀ w1 ∈ BABI.all_tokens (train ++ test), ∀ w2 ∈ BABI.all_tokens (train ++ test),
        st.wordIdx w1 = st.wordIdx w2 → w1 = w2) := by
  rw [BABI.compute_statistics, if_neg h]
  refine ⟨_, rfl, ?_, ?_, ?_⟩
  · show BABI.vocab_size (train ++ test) = _
    rw [BABI.vocab_size, BABI.length_vocab]
  · intro w hw
    have hv : w ∈ BABI.vocab (train ++ test) := BABI.mem_vocab.mpr hw
    refine ⟨(BABI.vocab (train ++ test)).indexOf w + 1, ?_, by omega⟩
    show BABI.word_idx _ w = _
    rw [BABI.word_idx, if_pos hv]
  · intro w1 h1 w2 h2 heq
    have hv1 : w1 ∈ BABI.vocab (train ++ test) := BABI.mem_vocab.mpr h1
    have hv2 : w2 ∈ BABI.vocab (train ++ test) := BABI.mem_vocab.mpr h2
    have heq2 : BABI.word_idx (train ++ test) w1 = BABI.word_idx (train ++ test) w2 := heq
    rw [BABI.word_idx, BABI.word_idx, if_pos hv1, if_pos hv2] at heq2
    have : (BABI.vocab (train ++ test)).indexOf w1 =
        (BABI.vocab (train ++ test)).indexOf w2 := by
      have := Option.some.inj heq2
      omega
    exact (List.indexOf_inj hv1 hv2).mp this

/-- C1 witness. -/
theorem compute_statistics_vocab_indexing_witness :
    ∃ st, BABI.compute_statistics ([(["Mary"], ["Where"], "bathroom")] ++ []) = some st ∧
      st.vocabSize =
        (BABI.all_tokens ([(["Mary"], ["Where"], "bathroom")] ++ [])).dedup.length + 1 ∧
      (∀ w ∈ BABI.all_tokens ([(["Mary"], ["Where"], "bathroom")] ++ []),
        ∃ i, st.wordIdx w = some i ∧ i ≠ 0) ∧
      (∀ w1 ∈ BABI.all_tokens ([(["Mary"], ["Where"], "bathroom")] ++ []),
        ∀ w2 ∈ BABI.all_tokens ([(["Mary"], ["Where"], "bathroom")] ++ []),
          st.wordIdx w1 = st.wordIdx w2 → w1 = w2) :=
  compute_statistics_vocab_indexing [(["Mary"], ["Where"], "bathroom")] [] (by decide)

/-- C6: `compute_statistics` is deterministic — it is a function of the
parsed data alone — and `word_idx` follows the sorted order of the distinct
tokens: the vocabulary is strictly sorted, and the word at sorted position
`i` receives index `i + 1`, so indices are exactly 1..|vocab|. -/
theorem compute_statistics_sorted_deterministic (d : List Example) :
    (BABI.vocab d).Sorted (fun a b => a < b) ∧
    (∀ i (h : i < (BABI.vocab d).length),
      BABI.word_idx d ((BABI.vocab d).get ⟨i, h⟩) = some (i + 1)) ∧
    (∀ d2, d = d2 → BABI.compute_statistics d = BABI.compute_statistics d2) := by
  refine ⟨?_, ?_, fun d2 e => e ▸ rfl⟩
  · have hs := List.sorted_insertionSort (fun a b => PyStr.le a b = true)
      (BABI.all_tokens d).dedup
    have hsle : (BABI.vocab d).Sorted (fun a b : String => a ≤ b) :=
      List.Pairwise.imp (fun h => (PyStr.le_iff _ _).mp h) hs
    exact hsle.lt_of_le (BABI.nodup_vocab d)
  · intro i h
    have hm : (BABI.vocab d).get ⟨i, h⟩ ∈ BABI.vocab d := List.get_mem _ _ _
    rw [BABI.word_idx, if_pos hm, List.get_indexOf (BABI.nodup_vocab d)]

/-- C6 witness. -/
theorem compute_statistics_sorted_deterministic_witness :
    BABI.word_idx [(["b"], ["a"], "c")]
        ((BABI.vocab [(["b"], ["a"], "c")]).get ⟨0, by decide⟩) = some 1 ∧
    BABI.compute_statistics [(["b"], ["a"], "c")] =
      BABI.compute_statistics [(["b"], ["a"], "c")] :=
  ⟨(compute_statistics_sorted_deterministic [(["b"], ["a"], "c")]).2.1 0 (by decide),
   (compute_statistics_sorted_deterministic [(["b"], ["a"], "c")]).2.2 _ rfl⟩

/-- C2: for every answer word present in `word_idx`, `one_hot_vector`
returns a vector of length `vocab_size` whose entry at the word index of
the answer is 1 and whose other entries are all 0. -/
theorem one_hot_vector_correct (d : List Example) (answer : String) (i : Nat)
    (h : BABI.word_idx d answer = some i) :
    ∃ v, BABI.one_hot_vector d answer = some v ∧
      v.length = BABI.vocab_size d ∧ i < v.length ∧
      ∀ j (hj : j < v.length), v.get ⟨j, hj⟩ = if j = i then 1 else 0 := by
  have hv : answer ∈ BABI.vocab d := by
    by_contra hv
    rw [BABI.word_idx, if_neg hv] at h
    exact Option.noConfusion h
  have hi : i = (BABI.vocab d).indexOf answer + 1 := by
    rw [BABI.word_idx, if_pos hv] at h
    exact (Option.some.inj h).symm
  have hidx : (BABI.vocab d).indexOf answer < (BABI.vocab d).length :=
    List.indexOf_lt_length.mpr hv
  have hlen : ((List.replicate (BABI.vocab_size d) 0).set i 1).length =
      BABI.vocab_size d := by
    rw [List.length_set, List.length_replicate]
  refine ⟨(List.replicate (BABI.vocab_size d) 0).set i 1, ?_, hlen, ?_, ?_⟩
  · rw [BABI.one_hot_vector, h]
    rfl
  · rw [hlen, BABI.vocab_size]
    omega
  · intro j hj
    rw [List.get_eq_getElem]
    show ((List.replicate (BABI.vocab_size d) 0).set i 1)[j] = _
    rw [List.getElem_set]
    by_cases hji : j = i
    · rw [if_pos hji.symm, if_pos hji]
    · rw [if_neg (fun e => hji e.symm), if_neg hji, List.getElem_replicate]

/-- C2 witness. -/
theorem one_hot_vector_correct_witness :
    ∃ v, BABI.one_hot_vector [(["b"], ["a"], "c")] "b" = some v ∧
      v.length = BABI.vocab_size [(["b"], ["a"], "c")] ∧ 2 < v.length ∧
      ∀ j (hj : j < v.length), v.get ⟨j, hj⟩ = if j = 2 then 1 else 0 :=
  one_hot_vector_correct [(["b"], ["a"], "c")] "b" 2 (by decide)

namespace BABI

lemma words_to_vector_none_iff (d : List Example) (ws : List String) :
    words_to_vector d ws = none ↔ ∃ w ∈ ws, word_idx d w = none := by
  induction ws with
  | nil => simp [words_to_vector]
  | cons w ws ih =>
    cases hw : word_idx d w with
    | none => simp [words_to_vector, hw]
    | some i => simp [words_to_vector, hw, ih]

lemma word_idx_of_mem {d : List Example} {w : String} (hw : w ∈ all_tokens d) :
    word_idx d w = some ((vocab d).indexOf w + 1) := by
  rw [word_idx, if_pos (mem_vocab.mpr hw)]

lemma mem_all_tokens {d : List Example} {e : Example} (he : e ∈ d) {w : String}
    (hw : w ∈ e.1 ++ e.2.1 ++ [e.2.2]) : w ∈ all_tokens d :=
  List.mem_flatMap.mpr ⟨e, he, hw⟩

end BABI

/-- C5: vectorization fails fast exactly on vocabulary misses —
`words_to_vector` (and `one_hot_vector`) returns a key-lookup error if and
only if some supplied word is absent from `word_idx` — and never does so on
the data the statistics were computed over: every story, query and answer of
`train ++ test` (including tokens appearing only in the test split)
vectorizes without a lookup error. -/
theorem words_to_vector_fail_fast (train test : List Example) :
    (∀ ws, BABI.words_to_vector (train ++ test) ws = none ↔
      ∃ w ∈ ws, BABI.word_idx (train ++ test) w = none) ∧
    (∀ a, BABI.one_hot_vector (train ++ test) a = none ↔
      BABI.word_idx (train ++ test) a = none) ∧
    (∀ e ∈ train ++ test,
      (BABI.words_to_vector (train ++ test) e.1).isSome = true ∧
      (BABI.words_to_vector (train ++ test) e.2.1).isSome = true ∧
      (BABI.one_hot_vector (train ++ test) e.2.2).isSome = true) := by
  have hidx : ∀ e ∈ train ++ test, ∀ w ∈ e.1 ++ e.2.1 ++ [e.2.2],
      BABI.word_idx (train ++ test) w ≠ none := by
    intro e he w hw hn
    rw [BABI.word_idx_of_mem (BABI.mem_all_tokens he hw)] at hn
    exact Option.noConfusion hn
  refine ⟨fun ws => BABI.words_to_vector_none_iff _ ws, fun a => ?_, fun e he => ?_⟩
  · rw [BABI.one_hot_vector]
    cases h : BABI.word_idx (train ++ test) a <;> simp [h]
  · refine ⟨?_, ?_, ?_⟩
    · rw [← Option.ne_none_iff_isSome]
      intro hn
      obtain ⟨w, hw, hnone⟩ := (BABI.words_to_vector_none_iff _ _).mp hn
      exact hidx e he w (by simp [hw]) hnone
    · rw [← Option.ne_none_iff_isSome]
      intro hn
      obtain ⟨w, hw, hnone⟩ := (BABI.words_to_vector_none_iff _ _).mp hn
      exact hidx e he w (by simp [hw]) hnone
    · rw [← Option.ne_none_iff_isSome, BABI.one_hot_vector,
        BABI.word_idx_of_mem (BABI.mem_all_tokens he (by simp))]
      intro hn
      exact Option.noConfusion hn

/-- C5 witness: with the token `"w"` appearing only in the test split, its
one-hot encoding still succeeds, while a token in no split fails with a
lookup error. -/
theorem words_to_vector_fail_fast_witness :
    BABI.words_to_vector ([(["x"], ["y"], "z")] ++ [([], [], "w")]) ["missing"] = none ∧
    (BABI.one_hot_vector ([(["x"], ["y"], "z")] ++ [([], [], "w")]) "w").isSome = true :=
  ⟨((words_to_vector_fail_fast [(["x"], ["y"], "z")] [([], [], "w")]).1 ["missing"]).mpr
      ⟨"missing", by decide, by decide⟩,
   ((words_to_vector_fail_fast [(["x"], ["y"], "z")] [([], [], "w")]).2.2
      ([], [], "w") (by decide)).2.2⟩

namespace QA

variable {α : Type}

lemma iterAux_eq (qa : QA α) :
    ∀ (fuel idx : Nat), qa.nbatches ≤ fuel + idx →
      iterAux qa fuel idx =
        ((List.range' idx (qa.nbatches - idx)).map qa.batchAt, max qa.nbatches idx) := by
  intro fuel
  induction fuel with
  | zero =>
    intro idx hf
    have h0 : qa.nbatches - idx = 0 := by omega
    rw [iterAux, h0]
    simp [Nat.max_eq_right (by omega : qa.nbatches ≤ idx)]
  | succ fuel ih =>
    intro idx hf
    by_cases h : idx < qa.nbatches
    · have hrec := ih (idx + 1) (by omega)
      have hn : qa.nbatches - idx = (qa.nbatches - (idx + 1)) + 1 := by omega
      rw [iterAux, if_pos h, hrec, hn, List.range'_succ, List.map_cons]
      have hmax : max qa.nbatches (idx + 1) = max qa.nbatches idx := by omega
      rw [hmax]
    · have h0 : qa.nbatches - idx = 0 := by omega
      rw [iterAux, if_neg h, h0]
      simp [Nat.max_eq_right (by omega : qa.nbatches ≤ idx)]

lemma iter_eq (qa : QA α) :
    iter qa = ((List.range' 0 qa.nbatches).map qa.batchAt,
      { qa with batch_index := qa.nbatches }) := by
  rw [iter, iterAux_eq qa qa.nbatches 0 (by omega)]
  simp

lemma slices_flatten (l : List α) (B : Nat) :
    ∀ (n i : Nat),
      ((List.range' i n).map (fun k => (l.drop (k * B)).take B)).flatten =
        (l.drop (i * B)).take (n * B) := by
  intro n
  induction n with
  | zero => intro i; simp
  | succ n ih =>
    intro i
    rw [List.range'_succ, List.map_cons, List.flatten_cons, ih (i + 1)]
    have h1 : (n + 1) * B = B + n * B := by ring
    have h2 : (i + 1) * B = i * B + B := by ring
    rw [h1, List.take_add, List.drop_drop, h2]
end QA

/-- C3: with a positive batch size and equal-length story/query/answer
arrays of `N` examples, the iterator yields exactly `N / B` (floor) batches;
the `i`-th yielded batch is the slice of rows `[i*B, (i+1)*B)` of each
array, hence `B` consecutive examples; and the concatenation of the yielded
story slices is exactly the first `(N / B) * B` rows, so the final
`N mod B` examples are never yielded. -/
theorem qa_iter_batches {α : Type} (qa : QA α) (hb : 0 < qa.bsz)
    (hq : qa.query.length = qa.ndata) (ha : qa.answer.length = qa.ndata) :
    ((QA.iter qa).1).length = qa.ndata / qa.bsz ∧
    (∀ i (h : i < ((QA.iter qa).1).length),
      ((QA.iter qa).1).get ⟨i, h⟩ = QA.batchAt qa i ∧
      (QA.batchAt qa i).1.length = qa.bsz ∧
      (QA.batchAt qa i).2.1.length = qa.bsz ∧
      (QA.batchAt qa i).2.2.length = qa.bsz) ∧
    (((QA.iter qa).1).map (fun b => b.1)).flatten =
      qa.story.take ((qa.ndata / qa.bsz) * qa.bsz) := by
  rw [QA.iter_eq]
  refine ⟨by simp [QA.nbatches], ?_, ?_⟩
  · intro i h
    have hi : i < qa.nbatches := by simpa using h
    have hbound : (i + 1) * qa.bsz ≤ qa.ndata :=
      le_trans (Nat.mul_le_mul_right qa.bsz (by omega : i + 1 ≤ qa.nbatches))
        (Nat.div_mul_le_self qa.ndata qa.bsz)
    have hib : i * qa.bsz + qa.bsz ≤ qa.ndata := by
      have : (i + 1) * qa.bsz = i * qa.bsz + qa.bsz := by ring
      omega
    refine ⟨?_, ?_, ?_, ?_⟩
    · rw [List.get_eq_getElem]
      simp
    · simp only [QA.batchAt, List.length_take, List.length_drop]
      have : qa.story.length = qa.ndata := rfl
      omega
    · simp only [QA.batchAt, List.length_take, List.length_drop]
      omega
    · simp only [QA.batchAt, List.length_take, List.length_drop]
      omega
  · rw [List.map_map]
    have hcomp : (fun b : List α × List α × List α => b.1) ∘ qa.batchAt =
        fun k => (qa.story.drop (k * qa.bsz)).take qa.bsz := rfl
    rw [hcomp, QA.slices_flatten qa.story qa.bsz qa.nbatches 0]
    simp [QA.nbatches]

/-- C3 witness: `N = 10`, `B = 3` yields exactly 3 batches. -/
theorem qa_iter_batches_witness :
    ((QA.iter (QA.mk (List.range 10) (List.range 10) (List.range 10) 3 0)).1).length = 3 :=
  (qa_iter_batches (QA.mk (List.range 10) (List.range 10) (List.range 10) 3 0)
    (by decide) (by decide) (by decide)).1

/-- C9: `__iter__` resets the batch cursor to 0 before yielding, so the
yielded sequence does not depend on the stored `batch_index`; iterating the
same `QA` object a second time — after a first full pass — yields exactly
the same batches; and `reset` is a no-op leaving the object unchanged. -/
theorem qa_iter_restart {α : Type} (qa : QA α) :
    QA.reset qa = qa ∧
    (∀ j : Nat, (QA.iter { qa with batch_index := j }).1 = (QA.iter qa).1) ∧
    (QA.iter ((QA.iter qa).2)).1 = (QA.iter qa).1 := by
  refine ⟨rfl, fun j => ?_, ?_⟩
  · rw [QA.iter_eq, QA.iter_eq]
    rfl
  · rw [QA.iter_eq qa, QA.iter_eq]
    rfl
